import Mathlib

/-!
Shallow embedding of the two-player trivia game server (server.js).

The persisted game state is modelled by `GameState`; each HTTP endpoint is a
pure function from the loaded (persisted) state and the request body to a
response together with the new persisted state.  A request that is rejected
before `saveGameState` leaves the persisted state unchanged, which the
embedding renders by returning the input state.  JavaScript `null` answer
slots become `Option String`; the ISO timestamp strings become an abstract
`Nat` clock threaded through the operations.
-/

inductive Player where
  | lachlan : Player
  | leigh : Player
deriving DecidableEq

/-- The two-slot mapping used for `answers` and `consensusAnswers`. -/
structure PlayerMap (α : Type) where
  lachlan : α
  leigh : α
deriving DecidableEq

def PlayerMap.get {α : Type} (m : PlayerMap α) : Player → α
  | Player.lachlan => m.lachlan
  | Player.leigh => m.leigh

def PlayerMap.set {α : Type} (m : PlayerMap α) : Player → α → PlayerMap α
  | Player.lachlan, v => { m with lachlan := v }
  | Player.leigh, v => { m with leigh := v }

/-- The otherPlayer computation used throughout server.js. -/
def Player.other : Player → Player
  | Player.lachlan => Player.leigh
  | Player.leigh => Player.lachlan

/-- The identifier string sent in request bodies for a player. -/
def playerString : Player → String
  | Player.lachlan => "lachlan"
  | Player.leigh => "leigh"

/-- One entry of the question catalog (questions.json). -/
structure Question where
  question : String
  choices : List String
  correct_answer : String
  hint : String
deriving DecidableEq

/-- A record pushed onto `state.history`: either the both-correct record from
`processAnswer` or the consensus record from the consensus endpoint. -/
inductive HistoryEntry where
  | firstRound (question : Nat) (questionText : String)
      (lachlanAnswer leighAnswer : Option String)
      (correctAnswer : String) (bothCorrect : Bool) (timestamp : Nat)
  | consensusEntry (question : Nat) (questionText : String)
      (initialAnswers : PlayerMap (Option String))
      (consensusAnswer : Option String) (correctAnswer : String)
      (wasCorrect : Bool) (wasConsensus : Bool) (timestamp : Nat)
deriving DecidableEq

/-- The persisted game state record (game-state.json). -/
structure GameState where
  currentQuestion : Nat
  answers : PlayerMap (Option String)
  consensusAnswers : PlayerMap (Option String)
  inDisagreement : Bool
  disagreementResolved : Bool
  showHint : Bool
  completed : Bool
  history : List HistoryEntry
  createdAt : Nat
  lastModified : Nat
deriving DecidableEq

/-- Model of createInitialState from server.js. -/
def createInitialState (now : Nat) : GameState :=
  { currentQuestion := 0
    answers := ⟨none, none⟩
    consensusAnswers := ⟨none, none⟩
    inDisagreement := false
    disagreementResolved := false
    showHint := false
    completed := false
    history := []
    createdAt := now
    lastModified := now }

/-- Model of isValidPlayer from server.js. -/
def isValidPlayer (player : String) : Bool :=
  player == "lachlan" || player == "leigh"

/-- Resolution of a request-body player string to one of the two players;
`none` exactly when `isValidPlayer` is false. -/
def parsePlayer (player : String) : Option Player :=
  if player = "lachlan" then some Player.lachlan
  else if player = "leigh" then some Player.leigh
  else none

/-- Model of isValidAnswer from server.js. -/
def isValidAnswer (answer : String) (choices : List String) : Bool :=
  choices.contains answer

/--
Model of processAnswer from server.js.  Records the first-round answer of the player, and
when the other player has also answered, evaluates both against the current
question.  Returns `none` exactly where the JavaScript would throw: when both
players have answered but `questions[state.currentQuestion]` is undefined, so
that reading `currentQ.correct_answer` raises a TypeError.  Note that this
function never touches `consensusAnswers`.
-/
def processAnswer (state : GameState) (player : Player) (answer : String)
    (questions : List Question) (now : Nat) : Option GameState :=
  let s1 : GameState := { state with answers := state.answers.set player (some answer) }
  if (s1.answers.get player.other).isSome then
    match questions[s1.currentQuestion]? with
    | none => none
    | some currentQ =>
      let lachlanCorrect : Bool := decide (s1.answers.lachlan = some currentQ.correct_answer)
      let leighCorrect : Bool := decide (s1.answers.leigh = some currentQ.correct_answer)
      if lachlanCorrect && leighCorrect then
        let s2 : GameState := { s1 with
          history := s1.history ++
            [HistoryEntry.firstRound s1.currentQuestion currentQ.question
              s1.answers.lachlan s1.answers.leigh currentQ.correct_answer true now]
          currentQuestion := s1.currentQuestion + 1
          answers := ⟨none, none⟩
          inDisagreement := false }
        if s2.currentQuestion ≥ questions.length then
          some { s2 with completed := true }
        else
          some s2
      else
        some { s1 with inDisagreement := true, disagreementResolved := false }
  else
    some s1

/-- Outcome of an endpoint call: a 400 rejection (`declined`), the generic
500 path taken when the handler body throws (`serverError`), or the success
JSON (`ok` carries the `waitingForOther` flag of the response). -/
inductive ApiResult where
  | declined (msg : String)
  | serverError
  | ok (waitingForOther : Bool)
deriving DecidableEq

def ApiResult.isDeclined : ApiResult → Bool
  | ApiResult.declined _ => true
  | _ => false

/--
The `POST /api/answer` handler from server.js, as a function of the persisted
state and the request body.  The `answer` field of the body is `Option String`
(`none` for an absent field); the JavaScript guard `!answer` also fires on the
empty string.  Rejections return the input state unchanged (nothing was
saved); an accepted submission clears `showHint`, runs `processAnswer`, and
saves (updating `lastModified`).
-/
def apiAnswer (state : GameState) (playerStr : String) (answer : Option String)
    (questions : List Question) (now : Nat) : ApiResult × GameState :=
  match parsePlayer playerStr with
  | none => (ApiResult.declined "Invalid player", state)
  | some player =>
    match answer with
    | none => (ApiResult.declined "Answer is required", state)
    | some a =>
      if a = "" then (ApiResult.declined "Answer is required", state)
      else if questions.length ≤ state.currentQuestion then
        (ApiResult.declined "No more questions", state)
      else
        match questions[state.currentQuestion]? with
        | none => (ApiResult.serverError, state)
        | some currentQ =>
          if ¬ (isValidAnswer a currentQ.choices) then
            (ApiResult.declined "Invalid answer choice", state)
          else if (state.answers.get player).isSome ∧ state.inDisagreement = false then
            (ApiResult.declined "You have already answered this question", state)
          else
            let s0 : GameState := { state with showHint := false }
            match processAnswer s0 player a questions now with
            | none => (ApiResult.serverError, state)
            | some s1 =>
              let s2 : GameState := { s1 with lastModified := now }
              (ApiResult.ok (s2.answers.get player.other = none), s2)

/--
The `POST /api/consensus` handler from server.js.  Note that it has no bounds
check on `currentQuestion`: when `inDisagreement` holds but the index is past
the catalog, `questions[state.currentQuestion]` is undefined, reading
`currentQ.choices` throws, and the catch block answers with the generic 500 —
modelled by `serverError` with the state unchanged.
-/
def apiConsensus (state : GameState) (playerStr : String) (answer : Option String)
    (questions : List Question) (now : Nat) : ApiResult × GameState :=
  match parsePlayer playerStr with
  | none => (ApiResult.declined "Invalid player", state)
  | some player =>
    match answer with
    | none => (ApiResult.declined "Answer is required", state)
    | some a =>
      if a = "" then (ApiResult.declined "Answer is required", state)
      else if state.inDisagreement = false then
        (ApiResult.declined "Not in consensus mode", state)
      else
        match questions[state.currentQuestion]? with
        | none => (ApiResult.serverError, state)
        | some currentQ =>
          if ¬ (isValidAnswer a currentQ.choices) then
            (ApiResult.declined "Invalid answer choice", state)
          else
            let s1 : GameState :=
              { state with consensusAnswers := state.consensusAnswers.set player (some a) }
            let s2 : GameState :=
              if (s1.consensusAnswers.get player.other).isSome then
                if s1.consensusAnswers.lachlan = s1.consensusAnswers.leigh then
                  let consensusAnswer := s1.consensusAnswers.lachlan
                  let isCorrect : Bool := decide (consensusAnswer = some currentQ.correct_answer)
                  let s3 : GameState := { s1 with
                    history := s1.history ++
                      [HistoryEntry.consensusEntry s1.currentQuestion currentQ.question
                        s1.answers consensusAnswer currentQ.correct_answer isCorrect true now] }
                  if isCorrect then
                    let s4 : GameState := { s3 with
                      currentQuestion := s3.currentQuestion + 1
                      answers := ⟨none, none⟩
                      consensusAnswers := ⟨none, none⟩
                      inDisagreement := false
                      showHint := false }
                    if s4.currentQuestion ≥ questions.length then
                      { s4 with completed := true }
                    else
                      s4
                  else
                    { s3 with
                      answers := ⟨none, none⟩
                      consensusAnswers := ⟨none, none⟩
                      inDisagreement := false
                      showHint := true }
                else
                  { s1 with consensusAnswers := ⟨none, none⟩ }
              else
                s1
            let s5 : GameState := { s2 with lastModified := now }
            (ApiResult.ok ((s5.consensusAnswers.get player.other = none) ∧ s5.inDisagreement = true),
              s5)

/-- The `POST /api/reset` handler: replaces the persisted state by a freshly
initialized one (whose `lastModified` the save stamps with the current time,
which `createInitialState` already set). -/
def apiReset (now : Nat) : GameState :=
  createInitialState now

/-- The on-disk shape of the state file.  The two late-added fields
(`consensusAnswers`, `showHint`) may be absent in legacy files, which
`loadGameState` default-fills. -/
structure StoredState where
  currentQuestion : Nat
  answers : PlayerMap (Option String)
  consensusAnswers : Option (PlayerMap (Option String))
  inDisagreement : Bool
  disagreementResolved : Bool
  showHint : Option Bool
  completed : Bool
  history : List HistoryEntry
  createdAt : Nat
  lastModified : Nat
deriving DecidableEq

/-- Model of saveGameState from server.js: stamps `lastModified` with the current
time and writes every field of the record to the state file. -/
def saveGameState (s : GameState) (now : Nat) : StoredState :=
  { currentQuestion := s.currentQuestion
    answers := s.answers
    consensusAnswers := some s.consensusAnswers
    inDisagreement := s.inDisagreement
    disagreementResolved := s.disagreementResolved
    showHint := some s.showHint
    completed := s.completed
    history := s.history
    createdAt := s.createdAt
    lastModified := now }

/-- Model of loadGameState from server.js, on a readable state file: parses the
stored record and default-fills the backwards-compatibility fields. -/
def loadGameState (st : StoredState) : GameState :=
  { currentQuestion := st.currentQuestion
    answers := st.answers
    consensusAnswers := st.consensusAnswers.getD ⟨none, none⟩
    inDisagreement := st.inDisagreement
    disagreementResolved := st.disagreementResolved
    showHint := st.showHint.getD false
    completed := st.completed
    history := st.history
    createdAt := st.createdAt
    lastModified := st.lastModified }

/-- States reachable from a fresh game through the mutating endpoints. -/
inductive Reachable (questions : List Question) : GameState → Prop where
  | init (now : Nat) : Reachable questions (createInitialState now)
  | reset (now : Nat) : Reachable questions (apiReset now)
  | answer (s : GameState) (p : String) (a : Option String) (now : Nat) :
      Reachable questions s →
      Reachable questions (apiAnswer s p a questions now).2
  | consensus (s : GameState) (p : String) (a : Option String) (now : Nat) :
      Reachable questions s →
      Reachable questions (apiConsensus s p a questions now).2

/-- The invariant of the spec: `consensusAnswers` is non-empty only while
`inDisagreement` is true; stated contrapositively. -/
def consensusOnlyInDisagreement (s : GameState) : Prop :=
  s.inDisagreement = false → s.consensusAnswers = ⟨none, none⟩

/-- The reachability invariant behind the terminal behaviour of `completed`:
the question index never passes the catalog length, and a completed state sits
exactly at the end with no pending disagreement. -/
def boundedInv (qs : List Question) (s : GameState) : Prop :=
  s.currentQuestion ≤ qs.length ∧
  (s.completed = true → s.currentQuestion = qs.length ∧ s.inDisagreement = false)

/-- A one-question catalog used for concrete scenarios; the correct answer is
the first of the two choices. -/
def qA : Question :=
  { question := "Q0", choices := ["A", "B"], correct_answer := "A", hint := "h0" }

def qs1 : List Question := [qA]

def cexS0 : GameState := createInitialState 0

/-- Lachlan answers correctly on the first round. -/
def cexS1 : GameState := (apiAnswer cexS0 "lachlan" (some "A") qs1 1).2

/-- Leigh answers incorrectly: the game enters disagreement. -/
def cexS2 : GameState := (apiAnswer cexS1 "leigh" (some "B") qs1 2).2

/-- Lachlan submits a consensus value while Leigh has not. -/
def cexS3 : GameState := (apiConsensus cexS2 "lachlan" (some "A") qs1 3).2

/-- Leigh re-submits a correct first-round answer during disagreement: the
question resolves while the consensus slot of Lachlan is still filled. -/
def cexS4 : GameState := (apiAnswer cexS3 "leigh" (some "A") qs1 4).2

/-- Leigh re-submits an incorrect first-round answer during disagreement: the
state re-enters the disagreement branch with a stale consensus slot. -/
def cexS4b : GameState := (apiAnswer cexS3 "leigh" (some "B") qs1 4).2

def cexT1 : GameState := (apiAnswer cexS0 "lachlan" (some "B") qs1 1).2

def cexT2 : GameState := (apiAnswer cexT1 "leigh" (some "A") qs1 2).2

def cexT3 : GameState := (apiConsensus cexT2 "lachlan" (some "B") qs1 3).2

/-- Both players agree on an incorrect consensus value: a history record is
appended although the question is not resolved. -/
def cexT4 : GameState := (apiConsensus cexT3 "leigh" (some "B") qs1 4).2

def cexT5 : GameState := (apiAnswer cexT4 "lachlan" (some "A") qs1 5).2

/-- The retry round resolves the question: a second history record appears for
the same (single) question. -/
def cexT6 : GameState := (apiAnswer cexT5 "leigh" (some "A") qs1 6).2

/-- A state in disagreement whose question index is past the catalog end; the
consensus endpoint has no bounds check and reaches the undefined question. -/
def cexPastEnd : GameState :=
  { createInitialState 0 with inDisagreement := true, currentQuestion := 1 }

/-- Helper: `processAnswer` never writes to `consensusAnswers` (the root cause
of the stale-consensus behaviour exhibited below). -/
theorem processAnswer_consensusAnswers (s : GameState) (p : Player) (a : String)
    (qs : List Question) (now : Nat) (s1 : GameState)
    (h : processAnswer s p a qs now = some s1) :
    s1.consensusAnswers = s.consensusAnswers := by
  simp only [processAnswer] at h
  repeat' split at h
  all_goals first
    | (injection h with h; subst h; rfl)
    | simp_all

/-- Helper: the answer endpoint never writes to `consensusAnswers`. -/
theorem apiAnswer_consensusAnswers (s : GameState) (p : String) (a : Option String)
    (qs : List Question) (now : Nat) :
    ((apiAnswer s p a qs now).2).consensusAnswers = s.consensusAnswers := by
  simp only [apiAnswer]
  repeat' split
  all_goals try rfl
  all_goals rename_i s1 heq
  all_goals
    exact show s1.consensusAnswers = s.consensusAnswers from
      processAnswer_consensusAnswers { s with showHint := false } _ _ qs now s1 heq

/-- Helper: the consensus endpoint preserves the consensus-only-in-disagreement
invariant (every branch either keeps `inDisagreement` true or empties the
consensus slots). -/
theorem apiConsensus_consInv (s : GameState) (p : String) (a : Option String)
    (qs : List Question) (now : Nat)
    (h : consensusOnlyInDisagreement s) :
    consensusOnlyInDisagreement (apiConsensus s p a qs now).2 := by
  unfold consensusOnlyInDisagreement at h ⊢
  simp only [apiConsensus]
  repeat' split
  all_goals intro hd
  all_goals first
    | exact h hd
    | rfl
    | (exfalso; simp_all)

/-- Helper: `processAnswer`, run below the catalog end on a non-completed
state, yields a state satisfying `boundedInv`. -/
theorem processAnswer_boundedInv (qs : List Question) (s : GameState) (p : Player)
    (a : String) (now : Nat) (s1 : GameState)
    (hlt : s.currentQuestion < qs.length)
    (hcomp : s.completed = false)
    (h : processAnswer s p a qs now = some s1) :
    boundedInv qs s1 := by
  unfold boundedInv
  simp only [processAnswer] at h
  repeat' split at h
  all_goals first
    | (injection h with h; subst h; simp_all; omega)
    | simp_all

/-- Helper: the answer endpoint preserves `boundedInv`. -/
theorem apiAnswer_boundedInv (qs : List Question) (s : GameState) (p : String)
    (a : Option String) (now : Nat) (h : boundedInv qs s) :
    boundedInv qs (apiAnswer s p a qs now).2 := by
  obtain ⟨h1, h2⟩ := h
  simp only [apiAnswer]
  cases hpp : parsePlayer p with
  | none => exact ⟨h1, h2⟩
  | some player =>
  cases a with
  | none => exact ⟨h1, h2⟩
  | some x =>
  dsimp only
  by_cases hx : x = ""
  · rw [if_pos hx]; exact ⟨h1, h2⟩
  rw [if_neg hx]
  by_cases hle : qs.length ≤ s.currentQuestion
  · rw [if_pos hle]; exact ⟨h1, h2⟩
  rw [if_neg hle]
  cases hq : qs[s.currentQuestion]? with
  | none => exact ⟨h1, h2⟩
  | some currentQ =>
  dsimp only
  by_cases hval : ¬ isValidAnswer x currentQ.choices = true
  · rw [if_pos hval]; exact ⟨h1, h2⟩
  rw [if_neg hval]
  by_cases hans : (s.answers.get player).isSome = true ∧ s.inDisagreement = false
  · rw [if_pos hans]; exact ⟨h1, h2⟩
  rw [if_neg hans]
  have hcomp : s.completed = false := by
    by_cases hc : s.completed = true
    · exact absurd (le_of_eq (h2 hc).1.symm) hle
    · simpa using hc
  cases hpa : processAnswer { s with showHint := false } player x qs now with
  | none => exact ⟨h1, h2⟩
  | some s1 =>
    have hinv := processAnswer_boundedInv qs { s with showHint := false } player x now s1
      (Nat.not_le.1 hle) hcomp hpa
    exact ⟨hinv.1, hinv.2⟩

/-- Helper: the consensus endpoint preserves `boundedInv`. -/
theorem apiConsensus_boundedInv (qs : List Question) (s : GameState) (p : String)
    (a : Option String) (now : Nat) (h : boundedInv qs s) :
    boundedInv qs (apiConsensus s p a qs now).2 := by
  obtain ⟨h1, h2⟩ := h
  simp only [apiConsensus]
  cases hpp : parsePlayer p with
  | none => exact ⟨h1, h2⟩
  | some player =>
  cases a with
  | none => exact ⟨h1, h2⟩
  | some x =>
  dsimp only
  by_cases hx : x = ""
  · rw [if_pos hx]; exact ⟨h1, h2⟩
  rw [if_neg hx]
  by_cases hdis : s.inDisagreement = false
  · rw [if_pos hdis]; exact ⟨h1, h2⟩
  rw [if_neg hdis]
  cases hq : qs[s.currentQuestion]? with
  | none => exact ⟨h1, h2⟩
  | some currentQ =>
  dsimp only
  by_cases hval : ¬ isValidAnswer x currentQ.choices = true
  · rw [if_pos hval]; exact ⟨h1, h2⟩
  rw [if_neg hval]
  have hcomp : s.completed = false := by
    by_cases hc : s.completed = true
    · exact absurd (h2 hc).2 hdis
    · simpa using hc
  have hlt : s.currentQuestion < qs.length := (List.getElem?_eq_some.1 hq).1
  unfold boundedInv
  repeat' split
  all_goals simp_all
  all_goals omega

/-- Helper: every reachable state satisfies `boundedInv`. -/
theorem reachable_boundedInv (qs : List Question) (s : GameState)
    (h : Reachable qs s) : boundedInv qs s := by
  induction h with
  | init now => exact ⟨Nat.zero_le _, by simp [createInitialState]⟩
  | reset now => exact ⟨Nat.zero_le _, by simp [apiReset, createInitialState]⟩
  | answer s p a now _ ih => exact apiAnswer_boundedInv qs s p a now ih
  | consensus s p a now _ ih => exact apiConsensus_boundedInv qs s p a now ih

/-- Helper: every branch of the answer endpoint appends at most one history
record and never edits existing ones. -/
theorem apiAnswer_history_append (s : GameState) (p : String) (a : Option String)
    (qs : List Question) (now : Nat) :
    ∃ δ, ((apiAnswer s p a qs now).2).history = s.history ++ δ ∧ δ.length ≤ 1 := by
  simp only [apiAnswer, processAnswer]
  repeat' split
  all_goals try exact ⟨[], (List.append_nil _).symm, by simp⟩
  all_goals rename_i heq
  all_goals repeat' split at heq
  all_goals try (injection heq with heq)
  all_goals try subst heq
  all_goals first
    | exact ⟨[], (List.append_nil _).symm, by simp⟩
    | refine ⟨[_], rfl, by simp⟩
    | simp_all

/-- Helper: every branch of the consensus endpoint appends at most one history
record and never edits existing ones. -/
theorem apiConsensus_history_append (s : GameState) (p : String) (a : Option String)
    (qs : List Question) (now : Nat) :
    ∃ δ, ((apiConsensus s p a qs now).2).history = s.history ++ δ ∧ δ.length ≤ 1 := by
  simp only [apiConsensus]
  repeat' split
  all_goals first
    | exact ⟨[], (List.append_nil _).symm, by simp⟩
    | refine ⟨[_], rfl, by simp⟩

/-- Claim C1 (amended): the invariant that `consensusAnswers` is non-empty
only while `inDisagreement` is true holds initially and after a reset, is
preserved by the consensus endpoint and by a save/load round trip, and is
preserved by the answer endpoint whenever the consensus slots are empty
beforehand (the answer endpoint never writes `consensusAnswers`, so from an
empty-slot state it cannot create a violation; the unrestricted statement
fails, see the counterexample). -/
theorem consensusEmpty_invariant (qs : List Question) :
    (∀ now, consensusOnlyInDisagreement (createInitialState now)) ∧
    (∀ now, consensusOnlyInDisagreement (apiReset now)) ∧
    (∀ s p a now, s.consensusAnswers = ⟨none, none⟩ →
      consensusOnlyInDisagreement (apiAnswer s p a qs now).2) ∧
    (∀ s p a now, consensusOnlyInDisagreement s →
      consensusOnlyInDisagreement (apiConsensus s p a qs now).2) ∧
    (∀ s now, consensusOnlyInDisagreement s →
      consensusOnlyInDisagreement (loadGameState (saveGameState s now))) := by
  refine ⟨?_, ?_, ?_, ?_, ?_⟩
  · intro now _; rfl
  · intro now _; rfl
  · intro s p a now hempty _
    rw [apiAnswer_consensusAnswers]
    exact hempty
  · intro s p a now h
    exact apiConsensus_consInv s p a qs now h
  · intro s now h
    exact h

/-- Claim C1, counterexample to the claim as stated: from the reachable state
`cexS3` (in disagreement, one consensus slot filled, which satisfies the
invariant), the first-round submission of a correct answer by Leigh resolves
the question and clears `inDisagreement`, yet the consensus slot of Lachlan
keeps its value: the resulting state has `inDisagreement = false` with a
non-empty `consensusAnswers`, so the first-round operation does not preserve
the invariant. -/
theorem consensus_invariant_violated :
    Reachable qs1 cexS3 ∧
    consensusOnlyInDisagreement cexS3 ∧
    ¬ consensusOnlyInDisagreement cexS4 ∧
    cexS4.inDisagreement = false ∧
    cexS4.consensusAnswers = ⟨some "A", none⟩ := by
  refine ⟨?_, ?_, ?_, ?_, ?_⟩
  · exact Reachable.consensus cexS2 "lachlan" (some "A") 3
      (Reachable.answer cexS1 "leigh" (some "B") 2
        (Reachable.answer cexS0 "lachlan" (some "A") 1
          (Reachable.init 0)))
  · intro h
    exact absurd h (by decide)
  · intro h
    exact absurd (h (by decide)) (by decide)
  · decide
  · decide

/-- Claim C1, witness for the amended invariant theorem at concrete inputs:
the answer endpoint applied to the fresh state (empty consensus slots) and the
consensus endpoint applied to the reachable disagreement state `cexS2`. -/
theorem consensusEmpty_invariant_witness :
    consensusOnlyInDisagreement (apiAnswer (createInitialState 0) "lachlan" (some "A") qs1 1).2 ∧
    consensusOnlyInDisagreement (apiConsensus cexS2 "lachlan" (some "A") qs1 3).2 := by
  constructor
  · exact (consensusEmpty_invariant qs1).2.2.1 (createInitialState 0) "lachlan" (some "A") 1 rfl
  · refine (consensusEmpty_invariant qs1).2.2.2.1 cexS2 "lachlan" (some "A") 3 ?_
    intro h
    exact absurd h (by decide)

/-- Claim C2 (amended): when a first-round submission completes the pair and
at least one of the two answers differs from the correct answer, the endpoint
sets `inDisagreement`, clears `disagreementResolved`, leaves
`currentQuestion` unchanged, keeps the recorded answers (only overwriting the
slot of the submitter), leaves `history` and `completed` unchanged — and
leaves `consensusAnswers` exactly as it was (the code does not re-initialize
it, contrary to the claim as stated; see the counterexample). -/
theorem answer_disagree (s : GameState) (qs : List Question) (p : Player)
    (v u : String) (now : Nat) (q : Question)
    (hq : qs[s.currentQuestion]? = some q)
    (hv : isValidAnswer v q.choices = true)
    (hv0 : ¬ v = "")
    (hphase : s.answers.get p = none ∨ s.inDisagreement = true)
    (hother : s.answers.get p.other = some u)
    (hwrong : ¬ (u = q.correct_answer ∧ v = q.correct_answer)) :
    ((apiAnswer s (playerString p) (some v) qs now).2.inDisagreement = true) ∧
    ((apiAnswer s (playerString p) (some v) qs now).2.disagreementResolved = false) ∧
    ((apiAnswer s (playerString p) (some v) qs now).2.currentQuestion = s.currentQuestion) ∧
    ((apiAnswer s (playerString p) (some v) qs now).2.answers = s.answers.set p (some v)) ∧
    ((apiAnswer s (playerString p) (some v) qs now).2.consensusAnswers = s.consensusAnswers) ∧
    ((apiAnswer s (playerString p) (some v) qs now).2.history = s.history) ∧
    ((apiAnswer s (playerString p) (some v) qs now).2.completed = s.completed) := by
  have hlt : s.currentQuestion < qs.length := (List.getElem?_eq_some.1 hq).1
  have hnle : ¬ qs.length ≤ s.currentQuestion := Nat.not_le.2 hlt
  cases p <;>
    simp only [playerString, Player.other, PlayerMap.get, PlayerMap.set] at hphase hother ⊢ <;>
    rcases hphase with hph | hph <;>
    simp only [apiAnswer, parsePlayer, reduceIte, hq, hv, hnle, hv0,
      processAnswer, PlayerMap.set, Player.other, PlayerMap.get, hother, hph,
      Option.isSome_some, Option.isSome_none, decide_eq_true_eq,
      ite_true, ite_false, not_true, not_false_iff, false_and, and_false, and_true,
      Bool.false_eq_true, if_false, if_true]
  all_goals rcases not_and_or.mp hwrong with hn | hn
  all_goals simp [hn]

/-- Claim C2, counterexample to the claim as stated: in the reachable
disagreement state `cexS3` the consensus slot of Lachlan is filled; Leigh then
re-submits an incorrect first-round answer, both answers are present and one
is wrong, yet `consensusAnswers` is not re-initialized to empty — the stale
value survives. -/
theorem answer_disagree_no_reinit :
    cexS3.inDisagreement = true ∧
    cexS3.consensusAnswers = ⟨some "A", none⟩ ∧
    cexS4b.inDisagreement = true ∧
    cexS4b.consensusAnswers = ⟨some "A", none⟩ ∧
    ¬ cexS4b.consensusAnswers = ⟨none, none⟩ := by
  refine ⟨by decide, by decide, by decide, by decide, by decide⟩

/-- Claim C2, witness: Leigh completes the pair with an incorrect answer from
the concrete state in which Lachlan answered correctly. -/
theorem answer_disagree_witness :
    ((apiAnswer cexS1 (playerString Player.leigh) (some "B") qs1 2).2.inDisagreement = true) ∧
    ((apiAnswer cexS1 (playerString Player.leigh) (some "B") qs1 2).2.disagreementResolved = false) ∧
    ((apiAnswer cexS1 (playerString Player.leigh) (some "B") qs1 2).2.currentQuestion =
      cexS1.currentQuestion) ∧
    ((apiAnswer cexS1 (playerString Player.leigh) (some "B") qs1 2).2.answers =
      cexS1.answers.set Player.leigh (some "B")) ∧
    ((apiAnswer cexS1 (playerString Player.leigh) (some "B") qs1 2).2.consensusAnswers =
      cexS1.consensusAnswers) ∧
    ((apiAnswer cexS1 (playerString Player.leigh) (some "B") qs1 2).2.history = cexS1.history) ∧
    ((apiAnswer cexS1 (playerString Player.leigh) (some "B") qs1 2).2.completed =
      cexS1.completed) :=
  answer_disagree cexS1 qs1 Player.leigh "B" "A" 2 qA (by decide) (by decide) (by decide)
    (Or.inl (by decide)) (by decide) (by decide)

/-- Claim C3: when a first-round submission completes the pair and both
answers equal the correct answer, the endpoint appends exactly one history
record marked both-correct, advances `currentQuestion` by one, resets
`answers` to two empty slots, clears `inDisagreement`, and sets `completed`
exactly when the new index reaches the catalog length (the hypothesis
`completed = false` holds in every reachable state below the catalog end, by
`boundedInv`). -/
theorem answer_bothCorrect (s : GameState) (qs : List Question) (p : Player)
    (v : String) (now : Nat) (q : Question)
    (hq : qs[s.currentQuestion]? = some q)
    (hv : isValidAnswer v q.choices = true)
    (hv0 : ¬ v = "")
    (hphase : s.answers.get p = none ∨ s.inDisagreement = true)
    (hother : s.answers.get p.other = some q.correct_answer)
    (hself : v = q.correct_answer)
    (hdone : s.completed = false) :
    ((apiAnswer s (playerString p) (some v) qs now).2.currentQuestion = s.currentQuestion + 1) ∧
    ((apiAnswer s (playerString p) (some v) qs now).2.answers = ⟨none, none⟩) ∧
    ((apiAnswer s (playerString p) (some v) qs now).2.inDisagreement = false) ∧
    ((apiAnswer s (playerString p) (some v) qs now).2.completed = true ↔
      s.currentQuestion + 1 = qs.length) ∧
    ((apiAnswer s (playerString p) (some v) qs now).2.history = s.history ++
      [HistoryEntry.firstRound s.currentQuestion q.question
        (some q.correct_answer) (some q.correct_answer) q.correct_answer true now]) := by
  have hlt : s.currentQuestion < qs.length := (List.getElem?_eq_some.1 hq).1
  have hnle : ¬ qs.length ≤ s.currentQuestion := Nat.not_le.2 hlt
  subst hself
  cases p <;>
    simp only [playerString, Player.other, PlayerMap.get] at hphase hother ⊢ <;>
    rcases hphase with hph | hph <;>
      simp only [apiAnswer, parsePlayer, reduceIte, hq, hv, hnle, hv0,
        processAnswer, PlayerMap.set, Player.other, PlayerMap.get, hother, hph, hdone,
        Option.isSome_some, Option.isSome_none, decide_eq_true_eq,
        ite_true, ite_false, not_true, not_false_iff, false_and, and_false, and_true,
        Bool.false_eq_true, if_false, if_true, Bool.and_self]
  all_goals
    by_cases hc : qs.length ≤ s.currentQuestion + 1 <;>
      simp only [hc, if_true, if_false, ite_true, ite_false, reduceIte] <;>
      simp <;> omega

/-- Claim C3, witness: Leigh completes the pair with the correct answer on the
one-question catalog; the game advances to index one and completes. -/
theorem answer_bothCorrect_witness :
    ((apiAnswer cexS1 (playerString Player.leigh) (some "A") qs1 2).2.currentQuestion =
      cexS1.currentQuestion + 1) ∧
    ((apiAnswer cexS1 (playerString Player.leigh) (some "A") qs1 2).2.answers = ⟨none, none⟩) ∧
    ((apiAnswer cexS1 (playerString Player.leigh) (some "A") qs1 2).2.inDisagreement = false) ∧
    ((apiAnswer cexS1 (playerString Player.leigh) (some "A") qs1 2).2.completed = true ↔
      cexS1.currentQuestion + 1 = qs1.length) ∧
    ((apiAnswer cexS1 (playerString Player.leigh) (some "A") qs1 2).2.history = cexS1.history ++
      [HistoryEntry.firstRound cexS1.currentQuestion qA.question
        (some qA.correct_answer) (some qA.correct_answer) qA.correct_answer true 2]) :=
  answer_bothCorrect cexS1 qs1 Player.leigh "A" 2 qA (by decide) (by decide) (by decide)
    (Or.inl (by decide)) (by decide) (by decide) (by decide)

/-- Claim C4: when a consensus submission completes the pair with both values
equal, a history record marked wasConsensus is appended; if the shared value
is the correct answer the endpoint resets `answers` and `consensusAnswers`,
clears `inDisagreement` and `showHint`, advances by one and sets `completed`
exactly when the catalog is exhausted; if the shared value is incorrect it
resets both maps, clears `inDisagreement`, sets `showHint` and stays on the
same question (hypothesis `completed = false` holds in every reachable
disagreement state, by `boundedInv`). -/
theorem consensus_agree (s : GameState) (qs : List Question) (p : Player)
    (v : String) (now : Nat) (q : Question)
    (hdis : s.inDisagreement = true)
    (hq : qs[s.currentQuestion]? = some q)
    (hv : isValidAnswer v q.choices = true)
    (hv0 : ¬ v = "")
    (hother : s.consensusAnswers.get p.other = some v)
    (hdone : s.completed = false) :
    ((apiConsensus s (playerString p) (some v) qs now).2.history = s.history ++
      [HistoryEntry.consensusEntry s.currentQuestion q.question s.answers (some v)
        q.correct_answer (decide (v = q.correct_answer)) true now]) ∧
    (v = q.correct_answer →
      ((apiConsensus s (playerString p) (some v) qs now).2.currentQuestion = s.currentQuestion + 1) ∧
      ((apiConsensus s (playerString p) (some v) qs now).2.answers = ⟨none, none⟩) ∧
      ((apiConsensus s (playerString p) (some v) qs now).2.consensusAnswers = ⟨none, none⟩) ∧
      ((apiConsensus s (playerString p) (some v) qs now).2.inDisagreement = false) ∧
      ((apiConsensus s (playerString p) (some v) qs now).2.showHint = false) ∧
      ((apiConsensus s (playerString p) (some v) qs now).2.completed = true ↔
        s.currentQuestion + 1 = qs.length)) ∧
    (¬ v = q.correct_answer →
      ((apiConsensus s (playerString p) (some v) qs now).2.currentQuestion = s.currentQuestion) ∧
      ((apiConsensus s (playerString p) (some v) qs now).2.answers = ⟨none, none⟩) ∧
      ((apiConsensus s (playerString p) (some v) qs now).2.consensusAnswers = ⟨none, none⟩) ∧
      ((apiConsensus s (playerString p) (some v) qs now).2.inDisagreement = false) ∧
      ((apiConsensus s (playerString p) (some v) qs now).2.showHint = true) ∧
      ((apiConsensus s (playerString p) (some v) qs now).2.completed = false)) := by
  have hlt : s.currentQuestion < qs.length := (List.getElem?_eq_some.1 hq).1
  cases p <;>
    simp only [playerString, Player.other, PlayerMap.get] at hother ⊢ <;>
    simp only [apiConsensus, parsePlayer, reduceIte, hq, hv, hv0, hdis, hdone,
      PlayerMap.set, Player.other, PlayerMap.get, hother,
      Option.isSome_some, Option.isSome_none, decide_eq_true_eq,
      ite_true, ite_false, not_true, not_false_iff, false_and, and_false, and_true,
      Bool.true_eq_false, Bool.false_eq_true, if_false, if_true]
  all_goals by_cases hc : v = q.correct_answer
  all_goals by_cases hlen : qs.length ≤ s.currentQuestion + 1
  all_goals simp [hc, hlen] <;> omega

/-- Claim C4, witness: from the disagreement state in which Lachlan already
proposed the (correct) consensus value, Leigh proposes the same value; the
question advances and the game completes. -/
theorem consensus_agree_witness :
    ((apiConsensus cexS3 (playerString Player.leigh) (some "A") qs1 4).2.history =
      cexS3.history ++
      [HistoryEntry.consensusEntry cexS3.currentQuestion qA.question cexS3.answers (some "A")
        qA.correct_answer (decide (("A" : String) = qA.correct_answer)) true 4]) ∧
    (("A" : String) = qA.correct_answer →
      ((apiConsensus cexS3 (playerString Player.leigh) (some "A") qs1 4).2.currentQuestion =
        cexS3.currentQuestion + 1) ∧
      ((apiConsensus cexS3 (playerString Player.leigh) (some "A") qs1 4).2.answers = ⟨none, none⟩) ∧
      ((apiConsensus cexS3 (playerString Player.leigh) (some "A") qs1 4).2.consensusAnswers =
        ⟨none, none⟩) ∧
      ((apiConsensus cexS3 (playerString Player.leigh) (some "A") qs1 4).2.inDisagreement = false) ∧
      ((apiConsensus cexS3 (playerString Player.leigh) (some "A") qs1 4).2.showHint = false) ∧
      ((apiConsensus cexS3 (playerString Player.leigh) (some "A") qs1 4).2.completed = true ↔
        cexS3.currentQuestion + 1 = qs1.length)) ∧
    (¬ ("A" : String) = qA.correct_answer →
      ((apiConsensus cexS3 (playerString Player.leigh) (some "A") qs1 4).2.currentQuestion =
        cexS3.currentQuestion) ∧
      ((apiConsensus cexS3 (playerString Player.leigh) (some "A") qs1 4).2.answers = ⟨none, none⟩) ∧
      ((apiConsensus cexS3 (playerString Player.leigh) (some "A") qs1 4).2.consensusAnswers =
        ⟨none, none⟩) ∧
      ((apiConsensus cexS3 (playerString Player.leigh) (some "A") qs1 4).2.inDisagreement = false) ∧
      ((apiConsensus cexS3 (playerString Player.leigh) (some "A") qs1 4).2.showHint = true) ∧
      ((apiConsensus cexS3 (playerString Player.leigh) (some "A") qs1 4).2.completed = false)) :=
  consensus_agree cexS3 qs1 Player.leigh "A" 4 qA (by decide) (by decide) (by decide)
    (by decide) (by decide) (by decide)

/-- Claim C5: when a consensus submission completes the pair with two
different values, both consensus slots are reset to empty, `inDisagreement`
stays true, the question index, history, hint flag, completion flag and
first-round answers are all unchanged. -/
theorem consensus_mismatch (s : GameState) (qs : List Question) (p : Player)
    (v w : String) (now : Nat) (q : Question)
    (hdis : s.inDisagreement = true)
    (hq : qs[s.currentQuestion]? = some q)
    (hv : isValidAnswer v q.choices = true)
    (hv0 : ¬ v = "")
    (hother : s.consensusAnswers.get p.other = some w)
    (hne : ¬ w = v) :
    ((apiConsensus s (playerString p) (some v) qs now).2.consensusAnswers = ⟨none, none⟩) ∧
    ((apiConsensus s (playerString p) (some v) qs now).2.inDisagreement = true) ∧
    ((apiConsensus s (playerString p) (some v) qs now).2.currentQuestion = s.currentQuestion) ∧
    ((apiConsensus s (playerString p) (some v) qs now).2.history = s.history) ∧
    ((apiConsensus s (playerString p) (some v) qs now).2.showHint = s.showHint) ∧
    ((apiConsensus s (playerString p) (some v) qs now).2.completed = s.completed) ∧
    ((apiConsensus s (playerString p) (some v) qs now).2.answers = s.answers) := by
  have hne' : ¬ v = w := fun h => hne h.symm
  cases p <;>
    simp only [playerString, Player.other, PlayerMap.get] at hother ⊢ <;>
    simp only [apiConsensus, parsePlayer, reduceIte, hq, hv, hv0, hdis,
      PlayerMap.set, Player.other, PlayerMap.get, hother,
      Option.isSome_some, Option.isSome_none, decide_eq_true_eq,
      ite_true, ite_false, not_true, not_false_iff, false_and, and_false, and_true,
      Bool.true_eq_false, Bool.false_eq_true, if_false, if_true] <;>
    simp [hne, hne']

/-- Claim C5, witness: from the disagreement state in which Lachlan proposed
consensus value B, Leigh proposes A; the two consensus slots are emptied and
the game stays in disagreement on the same question. -/
theorem consensus_mismatch_witness :
    ((apiConsensus cexT3 (playerString Player.leigh) (some "A") qs1 4).2.consensusAnswers =
      ⟨none, none⟩) ∧
    ((apiConsensus cexT3 (playerString Player.leigh) (some "A") qs1 4).2.inDisagreement = true) ∧
    ((apiConsensus cexT3 (playerString Player.leigh) (some "A") qs1 4).2.currentQuestion =
      cexT3.currentQuestion) ∧
    ((apiConsensus cexT3 (playerString Player.leigh) (some "A") qs1 4).2.history = cexT3.history) ∧
    ((apiConsensus cexT3 (playerString Player.leigh) (some "A") qs1 4).2.showHint =
      cexT3.showHint) ∧
    ((apiConsensus cexT3 (playerString Player.leigh) (some "A") qs1 4).2.completed =
      cexT3.completed) ∧
    ((apiConsensus cexT3 (playerString Player.leigh) (some "A") qs1 4).2.answers =
      cexT3.answers) :=
  consensus_mismatch cexT3 qs1 Player.leigh "A" "B" 4 qA (by decide) (by decide) (by decide)
    (by decide) (by decide) (by decide)

/-- Claim C6: in every reachable state with `completed = true` the question
index equals the catalog length, and every further first-round or consensus
submission is answered with a declined-request outcome and leaves the state
unchanged. -/
theorem completed_is_terminal (qs : List Question) (s : GameState)
    (hr : Reachable qs s) (hc : s.completed = true) :
    s.currentQuestion = qs.length ∧
    (∀ p a now, (apiAnswer s p a qs now).2 = s ∧
      (apiAnswer s p a qs now).1.isDeclined = true) ∧
    (∀ p a now, (apiConsensus s p a qs now).2 = s ∧
      (apiConsensus s p a qs now).1.isDeclined = true) := by
  obtain ⟨h1, h2⟩ := reachable_boundedInv qs s hr
  obtain ⟨hidx, hdis⟩ := h2 hc
  refine ⟨hidx, ?_, ?_⟩
  · intro p a now
    simp only [apiAnswer]
    cases parsePlayer p with
    | none => simp [ApiResult.isDeclined]
    | some player =>
      cases a with
      | none => simp [ApiResult.isDeclined]
      | some x =>
        dsimp only
        by_cases hx : x = ""
        · simp [hx, ApiResult.isDeclined]
        · rw [if_neg hx, if_pos (le_of_eq hidx.symm)]
          simp [ApiResult.isDeclined]
  · intro p a now
    simp only [apiConsensus]
    cases parsePlayer p with
    | none => simp [ApiResult.isDeclined]
    | some player =>
      cases a with
      | none => simp [ApiResult.isDeclined]
      | some x =>
        dsimp only
        by_cases hx : x = ""
        · simp [hx, ApiResult.isDeclined]
        · rw [if_neg hx, if_pos hdis]
          simp [ApiResult.isDeclined]

/-- Claim C6, witness: the completed state reached by answering the single
question correctly (with a stale consensus slot from the disagreement detour);
a further answer and a further consensus submission are both declined and
leave the state unchanged. -/
theorem completed_is_terminal_witness :
    cexS4.currentQuestion = qs1.length ∧
    (apiAnswer cexS4 "lachlan" (some "A") qs1 9).2 = cexS4 ∧
    (apiConsensus cexS4 "leigh" (some "B") qs1 9).2 = cexS4 := by
  have hr : Reachable qs1 cexS4 :=
    Reachable.answer cexS3 "leigh" (some "A") 4
      (Reachable.consensus cexS2 "lachlan" (some "A") 3
        (Reachable.answer cexS1 "leigh" (some "B") 2
          (Reachable.answer cexS0 "lachlan" (some "A") 1
            (Reachable.init 0))))
  have h := completed_is_terminal qs1 cexS4 hr (by decide)
  exact ⟨h.1, (h.2.1 "lachlan" (some "A") 9).1, (h.2.2 "leigh" (some "B") 9).1⟩

/-- Claim C7 (amended): the history is append-only under both submission
endpoints — every call leaves the existing records unchanged and appends at
most one record.  The claim that exactly one record arises per resolved
question fails: a consensus agreement on an incorrect value also appends a
record without resolving the question (see the counterexample). -/
theorem history_append_only (qs : List Question) (s : GameState) (p : String)
    (a : Option String) (now : Nat) :
    (∃ δ, ((apiAnswer s p a qs now).2).history = s.history ++ δ ∧ δ.length ≤ 1) ∧
    (∃ δ, ((apiConsensus s p a qs now).2).history = s.history ++ δ ∧ δ.length ≤ 1) :=
  ⟨apiAnswer_history_append s p a qs now, apiConsensus_history_append s p a qs now⟩

/-- Claim C7, counterexample to one-record-per-resolved-question: after both
players agree on the wrong consensus value, the history already holds one
record although the question is unresolved (index still zero, not completed);
when the question is finally resolved on the retry round, the one-question
game ends with two history records. -/
theorem history_two_records_one_question :
    cexT4.history.length = 1 ∧
    cexT4.currentQuestion = 0 ∧
    cexT4.completed = false ∧
    cexT6.history.length = 2 ∧
    cexT6.currentQuestion = 1 ∧
    cexT6.completed = true ∧
    qs1.length = 1 := by
  refine ⟨by decide, by decide, by decide, by decide, by decide, by decide, by decide⟩

/-- Claim C9: saving a game state and loading it back yields the same record
with only `lastModified` replaced by the save-time stamp. -/
theorem roundtrip_saveLoad (s : GameState) (now : Nat) :
    loadGameState (saveGameState s now) = { s with lastModified := now } := rfl

/-- Claim C10: while in disagreement, a player who already has a recorded
first-round answer is accepted again by the first-round endpoint; if the new
value and the standing answer of the other player are both correct, the game
advances by one, clears `inDisagreement` and resets the answers — with
`consensusAnswers` untouched, hence no consensus submission involved. -/
theorem answer_overwrite_resolves (s : GameState) (qs : List Question) (p : Player)
    (v w : String) (now : Nat) (q : Question)
    (hq : qs[s.currentQuestion]? = some q)
    (hv : isValidAnswer v q.choices = true)
    (hv0 : ¬ v = "")
    (hdis : s.inDisagreement = true)
    (halready : s.answers.get p = some w)
    (hother : s.answers.get p.other = some q.correct_answer)
    (hself : v = q.correct_answer) :
    (∃ b, (apiAnswer s (playerString p) (some v) qs now).1 = ApiResult.ok b) ∧
    ((apiAnswer s (playerString p) (some v) qs now).2.currentQuestion = s.currentQuestion + 1) ∧
    ((apiAnswer s (playerString p) (some v) qs now).2.inDisagreement = false) ∧
    ((apiAnswer s (playerString p) (some v) qs now).2.answers = ⟨none, none⟩) ∧
    ((apiAnswer s (playerString p) (some v) qs now).2.consensusAnswers = s.consensusAnswers) := by
  have hlt : s.currentQuestion < qs.length := (List.getElem?_eq_some.1 hq).1
  have hnle : ¬ qs.length ≤ s.currentQuestion := Nat.not_le.2 hlt
  subst hself
  cases p <;>
    simp only [playerString, Player.other, PlayerMap.get] at halready hother ⊢ <;>
    simp only [apiAnswer, parsePlayer, reduceIte, hq, hv, hnle, hv0,
      processAnswer, PlayerMap.set, Player.other, PlayerMap.get, hother, hdis,
      Option.isSome_some, Option.isSome_none, decide_eq_true_eq,
      ite_true, ite_false, not_true, not_false_iff, false_and, and_false, and_true,
      Bool.true_eq_false, Bool.false_eq_true, if_false, if_true]
  all_goals by_cases hlen : qs.length ≤ s.currentQuestion + 1
  all_goals simp [hlen]

/-- Claim C10, witness: in the disagreement state `cexS3`, Leigh (who had
answered B) re-submits A through the first-round endpoint; the submission is
accepted, the game advances past the single question and leaves disagreement,
while the consensus slot of Lachlan is untouched. -/
theorem answer_overwrite_resolves_witness :
    (∃ b, (apiAnswer cexS3 (playerString Player.leigh) (some "A") qs1 4).1 = ApiResult.ok b) ∧
    ((apiAnswer cexS3 (playerString Player.leigh) (some "A") qs1 4).2.currentQuestion =
      cexS3.currentQuestion + 1) ∧
    ((apiAnswer cexS3 (playerString Player.leigh) (some "A") qs1 4).2.inDisagreement = false) ∧
    ((apiAnswer cexS3 (playerString Player.leigh) (some "A") qs1 4).2.answers = ⟨none, none⟩) ∧
    ((apiAnswer cexS3 (playerString Player.leigh) (some "A") qs1 4).2.consensusAnswers =
      cexS3.consensusAnswers) :=
  answer_overwrite_resolves cexS3 qs1 Player.leigh "A" "B" 4 qA (by decide) (by decide)
    (by decide) (by decide) (by decide) (by decide) (by decide)

/-- Claim C8 (amended): every invalid submission — unknown player, missing or
empty answer field, first-round answer past the last question, answer outside
the choice set, first-round re-submission outside disagreement, consensus
submission outside disagreement — is rejected as a declined-request outcome
with the state entirely unchanged; the one exception to the outcome kind is a
consensus submission past the last question (possible only while
`inDisagreement`), which surfaces as a generic internal failure, still with
the state unchanged (see the counterexample). -/
theorem rejected_submissions_unchanged (qs : List Question) (s : GameState) (now : Nat) :
    (∀ pstr a, parsePlayer pstr = none →
      apiAnswer s pstr a qs now = (ApiResult.declined "Invalid player", s) ∧
      apiConsensus s pstr a qs now = (ApiResult.declined "Invalid player", s)) ∧
    (∀ pstr p, parsePlayer pstr = some p →
      (apiAnswer s pstr none qs now = (ApiResult.declined "Answer is required", s) ∧
       apiConsensus s pstr none qs now = (ApiResult.declined "Answer is required", s) ∧
       apiAnswer s pstr (some "") qs now = (ApiResult.declined "Answer is required", s) ∧
       apiConsensus s pstr (some "") qs now = (ApiResult.declined "Answer is required", s))) ∧
    (∀ pstr p x, parsePlayer pstr = some p → ¬ x = "" →
      qs.length ≤ s.currentQuestion →
      apiAnswer s pstr (some x) qs now = (ApiResult.declined "No more questions", s)) ∧
    (∀ pstr p x q, parsePlayer pstr = some p → ¬ x = "" →
      qs[s.currentQuestion]? = some q → ¬ isValidAnswer x q.choices = true →
      apiAnswer s pstr (some x) qs now = (ApiResult.declined "Invalid answer choice", s)) ∧
    (∀ pstr p x q, parsePlayer pstr = some p → ¬ x = "" →
      qs[s.currentQuestion]? = some q → isValidAnswer x q.choices = true →
      (s.answers.get p).isSome = true → s.inDisagreement = false →
      apiAnswer s pstr (some x) qs now =
        (ApiResult.declined "You have already answered this question", s)) ∧
    (∀ pstr p x, parsePlayer pstr = some p → ¬ x = "" →
      s.inDisagreement = false →
      apiConsensus s pstr (some x) qs now = (ApiResult.declined "Not in consensus mode", s)) ∧
    (∀ pstr p x, parsePlayer pstr = some p → ¬ x = "" →
      s.inDisagreement = true → qs[s.currentQuestion]? = none →
      apiConsensus s pstr (some x) qs now = (ApiResult.serverError, s)) ∧
    (∀ pstr p x q, parsePlayer pstr = some p → ¬ x = "" →
      s.inDisagreement = true → qs[s.currentQuestion]? = some q →
      ¬ isValidAnswer x q.choices = true →
      apiConsensus s pstr (some x) qs now = (ApiResult.declined "Invalid answer choice", s)) := by
  refine ⟨?_, ?_, ?_, ?_, ?_, ?_, ?_, ?_⟩
  · intro pstr a h
    constructor <;> (simp only [apiAnswer, apiConsensus, h])
  · intro pstr p h
    refine ⟨?_, ?_, ?_, ?_⟩ <;> simp only [apiAnswer, apiConsensus, h] <;> simp
  · intro pstr p x h hx hle
    simp only [apiAnswer, h]
    rw [if_neg hx, if_pos hle]
  · intro pstr p x q h hx hq hval
    simp only [apiAnswer, h, hq]
    rw [if_neg hx, if_neg (Nat.not_le.2 (List.getElem?_eq_some.1 hq).1)]
    dsimp only
    rw [if_pos hval]
  · intro pstr p x q h hx hq hval hans hdis
    simp only [apiAnswer, h, hq]
    rw [if_neg hx, if_neg (Nat.not_le.2 (List.getElem?_eq_some.1 hq).1)]
    dsimp only
    rw [if_neg (by simp [hval]), if_pos ⟨hans, hdis⟩]
  · intro pstr p x h hx hdis
    simp only [apiConsensus, h]
    rw [if_neg hx, if_pos hdis]
  · intro pstr p x h hx hdis hq
    simp only [apiConsensus, h, hq]
    rw [if_neg hx, if_neg (by simp [hdis])]
  · intro pstr p x q h hx hdis hq hval
    simp only [apiConsensus, h, hq]
    rw [if_neg hx, if_neg (by simp [hdis])]
    dsimp only
    rw [if_pos hval]

/-- Claim C8, counterexample to the declined-outcome part as stated: in a
disagreement state whose index is past the one-question catalog, a consensus
submission is not answered with a declined-request outcome but with the
generic internal failure (the handler throws on the undefined question); the
state is still unchanged. -/
theorem consensus_past_end_not_declined :
    (apiConsensus cexPastEnd "lachlan" (some "A") qs1 5).1 = ApiResult.serverError ∧
    (apiConsensus cexPastEnd "lachlan" (some "A") qs1 5).1.isDeclined = false ∧
    (apiConsensus cexPastEnd "lachlan" (some "A") qs1 5).2 = cexPastEnd := by
  refine ⟨by decide, by decide, by decide⟩

/-- Claim C8, witness: a submission under an unknown player name is declined
and leaves the fresh state unchanged, and a consensus submission with a value
outside the choice set is declined and leaves the disagreement state
unchanged. -/
theorem rejected_submissions_witness :
    apiAnswer cexS0 "mallory" (some "A") qs1 7 = (ApiResult.declined "Invalid player", cexS0) ∧
    apiConsensus cexS2 "lachlan" (some "C") qs1 7 =
      (ApiResult.declined "Invalid answer choice", cexS2) := by
  constructor
  · exact ((rejected_submissions_unchanged qs1 cexS0 7).1 "mallory" (some "A") (by decide)).1
  · exact (rejected_submissions_unchanged qs1 cexS2 7).2.2.2.2.2.2.2 "lachlan" Player.lachlan
      "C" qA (by decide) (by decide) (by decide) (by decide) (by decide)
